import Mathlib

/-!
Shallow embedding of the core logic of the GitHub Actions workflow
visualizer (src/pages/index.tsx): the four pure transformation functions
generateMermaid, extractJobSteps, extractTriggers and formatTriggerDetail,
modelled over a JavaScript-like structured value type produced by the
YAML-parsing collaborator.

Modelling conventions:
- A parsed document is a YVal; vnull models both JS null and undefined
  (the source never distinguishes them: both are falsy and both hit the
  same equality branch in extractTriggers).
- Field access (obj.key) is modelled by getField, which yields none for a
  missing key and for non-mapping receivers, matching JS property reads on
  objects and primitives.  Reading a property of null throws in JS; that
  throwing read is modelled explicitly (jsGetField, in the Except monad)
  inside formatTriggerDetail, whose specification quantifies over
  arbitrarily malformed payloads.  The three extractors are modelled with
  total access, as their input documents are taken to satisfy the data
  model (job values are JobDefinition mappings).
- Numbers are modelled as integers; floating point is not exercised by
  any claim.
- Mapping iteration order is the stored key order (JS insertion order for
  non-integer-like keys).
-/

mutual

inductive YVal where
  | vnull
  | vstr (s : String)
  | vnum (n : Int)
  | vbool (b : Bool)
  | vseq (xs : YList)
  | vmap (kvs : YPairs)

inductive YList where
  | nil
  | cons (hd : YVal) (tl : YList)

inductive YPairs where
  | nil
  | cons (key : String) (val : YVal) (tl : YPairs)

end

def YList.toList : YList → List YVal
  | .nil => []
  | .cons x rest => x :: rest.toList

def YPairs.toList : YPairs → List (String × YVal)
  | .nil => []
  | .cons k v rest => (k, v) :: rest.toList

def YPairs.length : YPairs → Nat
  | .nil => 0
  | .cons _ _ rest => rest.length + 1

/-- Build a sequence value out of a list of plain strings. -/
def strSeq : List String → YList
  | [] => .nil
  | s :: rest => .cons (.vstr s) (strSeq rest)

/-- JavaScript truthiness of a value (null, "", 0 and false are falsy;
every array and object is truthy). -/
def isTruthy : YVal → Bool
  | .vnull => false
  | .vstr s => !(s == "")
  | .vnum n => !(n == 0)
  | .vbool b => b
  | .vseq _ => true
  | .vmap _ => true

/-- JavaScript typeof v === "object" (true for null, arrays and plain
objects). -/
def isObject : YVal → Bool
  | .vnull => true
  | .vseq _ => true
  | .vmap _ => true
  | _ => false

def lookupPairs : YPairs → String → Option YVal
  | .nil, _ => none
  | .cons k v rest, key => if k == key then some v else lookupPairs rest key

/-- Total model of a JS property read obj.key: the value when the receiver
is a mapping holding the key, absent otherwise. -/
def getField : YVal → String → Option YVal
  | .vmap kvs, key => lookupPairs kvs key
  | _, _ => none

/-- Truthiness of a possibly-absent value (undefined is falsy). -/
def optTruthy : Option YVal → Bool
  | none => false
  | some v => isTruthy v

/-- Object.entries: the key/value pairs of a mapping; index/character
pairs for a string; empty for every other value. -/
def strEntriesFrom : List Char → Nat → YPairs
  | [], _ => .nil
  | c :: cs, i => .cons (toString i) (.vstr (String.singleton c)) (strEntriesFrom cs (i + 1))

def objEntries : YVal → YPairs
  | .vmap kvs => kvs
  | .vstr s => strEntriesFrom s.data 0
  | _ => .nil

mutual

/-- JavaScript String(v) / template-literal conversion: null prints as
"null", an array joins its elements with "," (null elements eliding to
the empty string), a plain object prints as "[object Object]". -/
def jsToString : YVal → String
  | .vnull => "null"
  | .vstr s => s
  | .vnum n => toString n
  | .vbool b => toString b
  | .vseq xs => jsJoinSep xs ","
  | .vmap _ => "[object Object]"

/-- Array.prototype.join with a given separator: elements converted with
String(), null/undefined elements become the empty string. -/
def jsJoinSep : YList → String → String
  | .nil, _ => ""
  | .cons .vnull .nil, _ => ""
  | .cons x .nil, _ => jsToString x
  | .cons .vnull rest, sep => sep ++ jsJoinSep rest sep
  | .cons x rest, sep => jsToString x ++ sep ++ jsJoinSep rest sep

end

-- ---------------------------------------------------------------------
-- Graph Builder: generateMermaid (src/pages/index.tsx lines 577-592)
-- ---------------------------------------------------------------------

/-- Array.isArray(needs) ? needs : [needs]. -/
def normNeeds : YVal → YList
  | .vseq xs => xs
  | v => .cons v .nil

/-- The needs.forEach loop: one edge line per dependency, in order. -/
def needsLoop : YList → String → String
  | .nil, _ => ""
  | .cons need rest, jobName =>
      ("  " ++ jsToString need ++ " --> " ++ jobName ++ "\n") ++ needsLoop rest jobName

/-- The per-job contribution to the graph text: edge lines when needs is
present and truthy, a standalone-node line otherwise. -/
def jobLines (jobName : String) (jobDef : YVal) : String :=
  match getField jobDef "needs" with
  | some needs =>
      if isTruthy needs then needsLoop (normNeeds needs) jobName
      else "  " ++ jobName ++ "\n"
  | none => "  " ++ jobName ++ "\n"

/-- The for-loop over Object.entries(workflow.jobs). -/
def graphLoop : YPairs → String
  | .nil => ""
  | .cons jobName jobDef rest => jobLines jobName jobDef ++ graphLoop rest

/-- generateMermaid: empty marker when the document or its jobs field is
falsy or has no keys, otherwise the header line followed by each job's
contribution in document order. -/
def generateMermaid (workflow : YVal) : String :=
  if !(isTruthy workflow) then ""
  else
    match getField workflow "jobs" with
    | none => ""
    | some jobs =>
        if !(isTruthy jobs) then ""
        else if (objEntries jobs).length == 0 then ""
        else "graph TD\n" ++ graphLoop (objEntries jobs)

-- ---------------------------------------------------------------------
-- Step Extractor: extractJobSteps (src/pages/index.tsx lines 594-611)
-- ---------------------------------------------------------------------

structure StepDetail where
  name : Option YVal
  uses : Option YVal
  run : Option YVal

structure JobSteps where
  jobName : String
  steps : List StepDetail

def stepsLoop : YList → List StepDetail
  | .nil => []
  | .cons step rest =>
      ⟨getField step "name", getField step "uses", getField step "run"⟩ :: stepsLoop rest

/-- The steps of one job: a StepDetail per entry when steps is a sequence,
empty otherwise. -/
def jobStepList (jobDef : YVal) : List StepDetail :=
  match getField jobDef "steps" with
  | some (.vseq xs) => stepsLoop xs
  | _ => []

def jobsLoop : YPairs → List JobSteps
  | .nil => []
  | .cons jobName jobDef rest => ⟨jobName, jobStepList jobDef⟩ :: jobsLoop rest

/-- extractJobSteps: empty when the document or its jobs field is falsy,
otherwise one JobSteps entry per job in document order. -/
def extractJobSteps (workflow : YVal) : List JobSteps :=
  if !(isTruthy workflow) then []
  else
    match getField workflow "jobs" with
    | none => []
    | some jobs =>
        if !(isTruthy jobs) then []
        else jobsLoop (objEntries jobs)

-- ---------------------------------------------------------------------
-- Trigger Extractor: extractTriggers (src/pages/index.tsx lines 613-637)
-- ---------------------------------------------------------------------

structure TriggerDetail where
  event : YVal
  details : Option String
  detailsObj : Option YVal

def trigSeqLoop : YList → List TriggerDetail
  | .nil => []
  | .cons evt rest => ⟨evt, none, none⟩ :: trigSeqLoop rest

/-- One entry of the mapping-shaped trigger specification: no detail for a
null or empty-string value, the verbatim payload (plus an empty details
string) for a structured value, String(detail) for any other scalar. -/
def mkTriggerEntry (event : String) (detail : YVal) : TriggerDetail :=
  match detail with
  | .vnull => ⟨.vstr event, none, none⟩
  | .vstr s => if s == "" then ⟨.vstr event, none, none⟩ else ⟨.vstr event, some s, none⟩
  | .vseq xs => ⟨.vstr event, some "", some (.vseq xs)⟩
  | .vmap kvs => ⟨.vstr event, some "", some (.vmap kvs)⟩
  | .vnum n => ⟨.vstr event, some (toString n), none⟩
  | .vbool b => ⟨.vstr event, some (toString b), none⟩

def trigMapLoop : YPairs → List TriggerDetail
  | .nil => []
  | .cons k v rest => mkTriggerEntry k v :: trigMapLoop rest

/-- extractTriggers: empty when the document or its on field is falsy;
one bare entry per element for a sequence; one entry per key for a
mapping; a single entry for a (non-empty) string; empty for any other
shape. -/
def extractTriggers (workflow : YVal) : List TriggerDetail :=
  if !(isTruthy workflow) then []
  else
    match getField workflow "on" with
    | none => []
    | some onv =>
        if !(isTruthy onv) then []
        else
          match onv with
          | .vseq xs => trigSeqLoop xs
          | .vmap kvs => trigMapLoop kvs
          | .vstr s => [⟨.vstr s, none, none⟩]
          | _ => []

-- ---------------------------------------------------------------------
-- Trigger Detail Formatter: formatTriggerDetail (src/pages/index.tsx
-- lines 35-65), modelled in an error monad because the source can throw
-- a TypeError on malformed payloads.
-- ---------------------------------------------------------------------

/-- JSON.stringify escaping of one character. -/
def hexDigit (n : Nat) : Char :=
  if n < 10 then Char.ofNat (48 + n) else Char.ofNat (87 + n)

def jsonEscapeChar (c : Char) : String :=
  if c = '"' then "\\\""
  else if c = '\\' then "\\\\"
  else if c = '\n' then "\\n"
  else if c = '\r' then "\\r"
  else if c = '\t' then "\\t"
  else if c.toNat = 8 then "\\b"
  else if c.toNat = 12 then "\\f"
  else if c.toNat < 32 then "\\u00" ++ String.mk [hexDigit (c.toNat / 16), hexDigit (c.toNat % 16)]
  else String.singleton c

def jsonEscape (s : String) : String :=
  String.join (s.data.map jsonEscapeChar)

def pad (n : Nat) : String :=
  String.mk (List.replicate n ' ')

mutual

/-- JSON.stringify(v, null, 2) at a given current indentation. -/
def jsonStr : YVal → Nat → String
  | .vnull, _ => "null"
  | .vstr s, _ => "\"" ++ jsonEscape s ++ "\""
  | .vnum n, _ => toString n
  | .vbool b, _ => toString b
  | .vseq .nil, _ => "[]"
  | .vseq xs, ind => "[\n" ++ jsonSeqItems xs (ind + 2) ++ "\n" ++ pad ind ++ "]"
  | .vmap .nil, _ => "\x7b\x7d"
  | .vmap kvs, ind => "\x7b\n" ++ jsonMapItems kvs (ind + 2) ++ "\n" ++ pad ind ++ "\x7d"

def jsonSeqItems : YList → Nat → String
  | .nil, _ => ""
  | .cons x .nil, ind => pad ind ++ jsonStr x ind
  | .cons x rest, ind => pad ind ++ jsonStr x ind ++ ",\n" ++ jsonSeqItems rest ind

def jsonMapItems : YPairs → Nat → String
  | .nil, _ => ""
  | .cons k v .nil, ind => pad ind ++ "\"" ++ jsonEscape k ++ "\": " ++ jsonStr v ind
  | .cons k v rest, ind =>
      pad ind ++ "\"" ++ jsonEscape k ++ "\": " ++ jsonStr v ind ++ ",\n" ++ jsonMapItems rest ind

end

/-- A rendered detail shape: nothing (the source returns null), a list of
labeled items, or the generic preformatted structured dump. -/
inductive RItem where
  | item (label : String) (content : Option YVal)

inductive RenderNode where
  | rnone
  | ulist (items : List RItem)
  | pre (s : String)

/-- A JS property read whose receiver may be null, in which case it throws
a TypeError. -/
def jsGetField (v : YVal) (key : String) : Except String (Option YVal) :=
  match v with
  | .vnull => .error "TypeError: Cannot read properties of null"
  | .vmap kvs => .ok (lookupPairs kvs key)
  | _ => .ok none

/-- Array.prototype.join called on an arbitrary value: a TypeError unless
the receiver is an array. -/
def jsJoin (v : YVal) (sep : String) : Except String String :=
  match v with
  | .vseq xs => .ok (jsJoinSep xs sep)
  | _ => .error "TypeError: v.join is not a function"

/-- One recognized field of a push/pull_request payload: skipped when
absent or falsy, otherwise a single labeled item holding the joined
values (throwing when the field value has no join method). -/
def fieldItem (detail : YVal) (key label : String) : Except String (List RItem) :=
  match getField detail key with
  | some v =>
      if isTruthy v then
        match jsJoin v ", " with
        | .ok s => .ok [RItem.item label (some (.vstr s))]
        | .error e => .error e
      else .ok []
  | none => .ok []

def isSeq : YVal → Bool
  | .vseq _ => true
  | _ => false

def seqItems : YVal → YList
  | .vseq xs => xs
  | _ => .nil

/-- The schedule branch: one Cron item per sequence entry, reading the
cron field of each entry (throwing when an entry is null). -/
def schedItems : YList → Except String (List RItem)
  | .nil => .ok []
  | .cons sched rest =>
      match jsGetField sched "cron" with
      | .error e => .error e
      | .ok c =>
          match schedItems rest with
          | .error e => .error e
          | .ok items => .ok (RItem.item "Cron" c :: items)

/-- formatTriggerDetail: nothing for an absent/non-object payload; the
three recognized labeled items for push/pull_request; a single Types item
for issue_comment/release when the types field is truthy (falling through
otherwise); per-entry Cron items for a sequence-shaped schedule payload;
the generic JSON dump for everything else. -/
def formatTriggerDetail (event : String) (detail : YVal) : Except String RenderNode :=
  if !(isTruthy detail) || !(isObject detail) then .ok .rnone
  else if event == "push" || event == "pull_request" then
    match fieldItem detail "branches" "Branches" with
    | .error e => .error e
    | .ok i1 =>
        match fieldItem detail "paths" "Paths" with
        | .error e => .error e
        | .ok i2 =>
            match fieldItem detail "types" "Types" with
            | .error e => .error e
            | .ok i3 => .ok (.ulist (i1 ++ i2 ++ i3))
  else if (event == "issue_comment" || event == "release") && optTruthy (getField detail "types") then
    match jsJoin ((getField detail "types").getD .vnull) ", " with
    | .error e => .error e
    | .ok s => .ok (.ulist [RItem.item "Types" (some (.vstr s))])
  else if event == "schedule" && isSeq detail then
    match schedItems (seqItems detail) with
    | .error e => .error e
    | .ok items => .ok (.ulist items)
  else .ok (.pre (jsonStr detail 0))

example : generateMermaid (.vmap (.cons "jobs" (.vmap (.cons "build" (.vmap .nil)
    (.cons "test" (.vmap (.cons "needs" (.vstr "build") .nil)) .nil))) .nil))
    = "graph TD\n  build\n  build --> test\n" := rfl

example : jsonStr (.vmap (.cons "foo" (.vnum 1) .nil)) 0 = "\x7b\n  \"foo\": 1\n\x7d" := rfl

-- ---------------------------------------------------------------------
-- General helper lemmas
-- ---------------------------------------------------------------------

theorem strfold_init (l : List String) (a : String) :
    List.foldl (fun r s => r ++ s) a l = a ++ List.foldl (fun r s => r ++ s) "" l := by
  induction l generalizing a with
  | nil => exact (String.append_empty a).symm
  | cons x xs ih =>
      simp only [List.foldl]
      rw [ih (a ++ x), ih ("" ++ x), String.empty_append, String.append_assoc]

theorem sjoin_cons (s : String) (l : List String) :
    String.join (s :: l) = s ++ String.join l := by
  unfold String.join
  simp only [List.foldl]
  rw [strfold_init l ("" ++ s), String.empty_append]

theorem within_extend_left (a : List Char) (x l : List Char) (h : x <:+: l) :
    x <:+: a ++ l := by
  obtain ⟨s, t, rfl⟩ := h
  exact ⟨a ++ s, t, by simp [List.append_assoc]⟩

theorem within_trans (x y z : List Char) (h1 : x <:+: y) (h2 : y <:+: z) :
    x <:+: z := by
  obtain ⟨s1, t1, rfl⟩ := h1
  obtain ⟨s2, t2, rfl⟩ := h2
  exact ⟨s2 ++ s1, t1 ++ t2, by simp [List.append_assoc]⟩

theorem graphLoop_join : (kvs : YPairs) →
    graphLoop kvs = String.join (kvs.toList.map fun p => jobLines p.1 p.2)
  | .nil => rfl
  | .cons k v rest => by
      show jobLines k v ++ graphLoop rest = _
      rw [graphLoop_join rest]
      simp only [YPairs.toList, List.map_cons]
      rw [sjoin_cons]

theorem needsLoop_strSeq (names : List String) (jobName : String) :
    needsLoop (strSeq names) jobName =
      String.join (names.map fun nm => "  " ++ nm ++ " --> " ++ jobName ++ "\n") := by
  induction names with
  | nil => rfl
  | cons x xs ih =>
      show ("  " ++ jsToString (.vstr x) ++ " --> " ++ jobName ++ "\n") ++ needsLoop (strSeq xs) jobName = _
      rw [List.map_cons, sjoin_cons, ih]
      rfl

theorem gm_eq (doc : YVal) (kvs : YPairs)
    (h : getField doc "jobs" = some (.vmap kvs)) (hne : kvs ≠ .nil) :
    generateMermaid doc = "graph TD\n" ++ graphLoop kvs := by
  cases doc with
  | vmap dkvs =>
      cases kvs with
      | nil => exact absurd rfl hne
      | cons k v rest =>
          simp [generateMermaid, h, isTruthy, objEntries, YPairs.length]
  | vnull => simp [getField] at h
  | vstr s => simp [getField] at h
  | vnum n => simp [getField] at h
  | vbool b => simp [getField] at h
  | vseq xs => simp [getField] at h

theorem ejs_eq (doc : YVal) (kvs : YPairs)
    (h : getField doc "jobs" = some (.vmap kvs)) :
    extractJobSteps doc = jobsLoop kvs := by
  cases doc with
  | vmap dkvs => simp [extractJobSteps, h, isTruthy, objEntries]
  | vnull => simp [getField] at h
  | vstr s => simp [getField] at h
  | vnum n => simp [getField] at h
  | vbool b => simp [getField] at h
  | vseq xs => simp [getField] at h

theorem jobsLoop_map : (kvs : YPairs) →
    jobsLoop kvs = kvs.toList.map fun p => ⟨p.1, jobStepList p.2⟩
  | .nil => rfl
  | .cons k v rest => by
      show (⟨k, jobStepList v⟩ : JobSteps) :: jobsLoop rest = _
      rw [jobsLoop_map rest]
      simp only [YPairs.toList, List.map_cons]

theorem stepsLoop_map : (xs : YList) →
    stepsLoop xs = xs.toList.map fun st =>
      (⟨getField st "name", getField st "uses", getField st "run"⟩ : StepDetail)
  | .nil => rfl
  | .cons st rest => by
      show (⟨getField st "name", getField st "uses", getField st "run"⟩ : StepDetail) :: stepsLoop rest = _
      rw [stepsLoop_map rest]
      simp only [YList.toList, List.map_cons]

-- ---------------------------------------------------------------------
-- Claim theorems
-- ---------------------------------------------------------------------

/-- C1 counterexample: a job whose needs field is present as the scalar
empty string is not normalized to a one-element sequence with one edge
line; the falsy gate emits the standalone-node line instead, so at jobs
deploy with needs "" the output is the header plus "  deploy" rather than
the header plus the edge line of the normalized scalar. -/
theorem C1_counterexample :
    generateMermaid (.vmap (.cons "jobs" (.vmap (.cons "deploy"
        (.vmap (.cons "needs" (.vstr "") .nil)) .nil)) .nil))
      = "graph TD\n  deploy\n"
    ∧ "graph TD\n  deploy\n" ≠ "graph TD\n   --> deploy\n" :=
  ⟨rfl, by decide⟩

/-- C1 (amended): for a document with a present non-empty jobs mapping,
the graph text is the header followed by each job's contribution in
order; a job whose needs is a sequence of k names contributes exactly the
k edge lines "  name_i --> job" in order; a scalar needs is normalized to
a one-element sequence only when it is truthy — a non-empty string scalar
contributes the single normalized edge line, while an empty-string scalar
is falsy and contributes the standalone-node line — and a job with needs
absent contributes exactly the standalone-node line "  job". -/
theorem C1_graph_builder_per_job (doc : YVal) (kvs : YPairs)
    (hjobs : getField doc "jobs" = some (.vmap kvs)) (hne : kvs ≠ .nil) :
    generateMermaid doc = "graph TD\n" ++ String.join (kvs.toList.map fun p => jobLines p.1 p.2)
    ∧ (∀ (jobName : String) (jobDef : YVal) (names : List String),
        getField jobDef "needs" = some (.vseq (strSeq names)) →
        jobLines jobName jobDef =
          String.join (names.map fun nm => "  " ++ nm ++ " --> " ++ jobName ++ "\n"))
    ∧ (∀ (jobName : String) (jobDef : YVal) (s : String), s ≠ "" →
        getField jobDef "needs" = some (.vstr s) →
        jobLines jobName jobDef = "  " ++ s ++ " --> " ++ jobName ++ "\n")
    ∧ (∀ (jobName : String) (jobDef : YVal),
        getField jobDef "needs" = some (.vstr "") →
        jobLines jobName jobDef = "  " ++ jobName ++ "\n")
    ∧ (∀ (jobName : String) (jobDef : YVal),
        getField jobDef "needs" = none →
        jobLines jobName jobDef = "  " ++ jobName ++ "\n") := by
  refine ⟨?_, ?_, ?_, ?_, ?_⟩
  · rw [gm_eq doc kvs hjobs hne, graphLoop_join]
  · intro jobName jobDef names hn
    rw [jobLines, hn]
    simp only [isTruthy, if_pos]
    rw [show normNeeds (.vseq (strSeq names)) = strSeq names from rfl]
    exact needsLoop_strSeq names jobName
  · intro jobName jobDef s hs hn
    rw [jobLines, hn]
    have hb : (s == "") = false := by
      cases hb2 : s == "" with
      | true => exact absurd (by simpa using hb2) hs
      | false => rfl
    simp only [isTruthy, hb, Bool.not_false, if_pos]
    show ("  " ++ jsToString (.vstr s) ++ " --> " ++ jobName ++ "\n") ++ needsLoop .nil jobName = _
    rw [show needsLoop .nil jobName = "" from rfl, String.append_empty]
    rfl
  · intro jobName jobDef hn
    rw [jobLines, hn]
    rfl
  · intro jobName jobDef hn
    rw [jobLines, hn]

/-- C1 witness: a concrete two-entry needs evaluation. -/
theorem C1_witness :
    generateMermaid (.vmap (.cons "jobs" (.vmap (.cons "a"
      (.vmap (.cons "needs" (.vseq (.cons (.vstr "b") (.cons (.vstr "c") .nil))) .nil)) .nil)) .nil))
      = "graph TD\n  b --> a\n  c --> a\n" := by
  have h := C1_graph_builder_per_job
      (.vmap (.cons "jobs" (.vmap (.cons "a"
        (.vmap (.cons "needs" (.vseq (.cons (.vstr "b") (.cons (.vstr "c") .nil))) .nil)) .nil)) .nil))
      (.cons "a" (.vmap (.cons "needs" (.vseq (.cons (.vstr "b") (.cons (.vstr "c") .nil))) .nil)) .nil)
      rfl (fun hx => YPairs.noConfusion hx)
  exact h.1.trans (by rfl)

/-- C2: a document with no jobs field, or with an empty jobs mapping,
makes generateMermaid return the empty marker and extractJobSteps return
the empty sequence; the marker is distinguishable because every document
with a non-empty jobs mapping produces a non-empty graph text. -/
theorem C2_empty_marker (doc : YVal) :
    (getField doc "jobs" = none → generateMermaid doc = "" ∧ extractJobSteps doc = [])
    ∧ (getField doc "jobs" = some (.vmap .nil) → generateMermaid doc = "" ∧ extractJobSteps doc = [])
    ∧ (∀ (doc2 : YVal) (kvs : YPairs), getField doc2 "jobs" = some (.vmap kvs) → kvs ≠ .nil →
        generateMermaid doc2 ≠ "") := by
  refine ⟨?_, ?_, ?_⟩
  · intro h
    cases doc <;>
      simp_all [generateMermaid, extractJobSteps, isTruthy, getField]
  · intro h
    cases doc with
    | vmap dkvs =>
        constructor
        · simp [generateMermaid, h, isTruthy, objEntries, YPairs.length]
        · simp [extractJobSteps, h, isTruthy, objEntries, jobsLoop]
    | vnull => simp [getField] at h
    | vstr s => simp [getField] at h
    | vnum n => simp [getField] at h
    | vbool b => simp [getField] at h
    | vseq xs => simp [getField] at h
  · intro doc2 kvs h2 hne he
    rw [gm_eq doc2 kvs h2 hne] at he
    have hd := congrArg (fun s => s.data.length) he
    simp only [String.data_append, List.length_append] at hd
    have h9 : "graph TD\n".data.length = 9 := rfl
    have h0 : "".data.length = 0 := rfl
    rw [h9, h0] at hd
    omega

theorem trigSeqLoop_map : (xs : YList) →
    trigSeqLoop xs = xs.toList.map fun evt => (⟨evt, none, none⟩ : TriggerDetail)
  | .nil => rfl
  | .cons evt rest => by
      show (⟨evt, none, none⟩ : TriggerDetail) :: trigSeqLoop rest = _
      rw [trigSeqLoop_map rest]
      simp only [YList.toList, List.map_cons]

theorem trigMapLoop_map : (kvs : YPairs) →
    trigMapLoop kvs = kvs.toList.map fun p => mkTriggerEntry p.1 p.2
  | .nil => rfl
  | .cons k v rest => by
      show mkTriggerEntry k v :: trigMapLoop rest = _
      rw [trigMapLoop_map rest]
      simp only [YPairs.toList, List.map_cons]

/-- C3 (amended): extractTriggers maps each trigger-specification shape as
specified: absent, or present as the empty string, yields the empty
sequence; a single non-empty string yields one entry with that event name
and no detail; a sequence yields one bare entry per element in order; a
mapping yields one entry per key in iteration order, where a null or
empty-string value carries no detail, a structured value is carried
verbatim in the structured-detail field, and any other non-empty scalar
is carried as its string form in the separate textual-detail field. -/
theorem C3_trigger_extractor (doc : YVal) :
    (getField doc "on" = none → extractTriggers doc = [])
    ∧ (getField doc "on" = some (.vstr "") → extractTriggers doc = [])
    ∧ (∀ s : String, s ≠ "" → getField doc "on" = some (.vstr s) →
        extractTriggers doc = [⟨.vstr s, none, none⟩])
    ∧ (∀ xs : YList, getField doc "on" = some (.vseq xs) →
        extractTriggers doc = xs.toList.map fun evt => (⟨evt, none, none⟩ : TriggerDetail))
    ∧ (∀ kvs : YPairs, getField doc "on" = some (.vmap kvs) →
        extractTriggers doc = kvs.toList.map fun p => mkTriggerEntry p.1 p.2)
    ∧ (∀ e : String,
        mkTriggerEntry e .vnull = ⟨.vstr e, none, none⟩
        ∧ mkTriggerEntry e (.vstr "") = ⟨.vstr e, none, none⟩
        ∧ (∀ xs : YList, mkTriggerEntry e (.vseq xs) = ⟨.vstr e, some "", some (.vseq xs)⟩)
        ∧ (∀ kvs : YPairs, mkTriggerEntry e (.vmap kvs) = ⟨.vstr e, some "", some (.vmap kvs)⟩)
        ∧ (∀ s : String, s ≠ "" → mkTriggerEntry e (.vstr s) = ⟨.vstr e, some s, none⟩)
        ∧ (∀ n : Int, mkTriggerEntry e (.vnum n) = ⟨.vstr e, some (toString n), none⟩)
        ∧ (∀ b : Bool, mkTriggerEntry e (.vbool b) = ⟨.vstr e, some (toString b), none⟩)) := by
  refine ⟨?_, ?_, ?_, ?_, ?_, ?_⟩
  · intro h
    cases doc <;> simp_all [extractTriggers, isTruthy, getField]
  · intro h
    cases doc with
    | vmap dkvs => simp [extractTriggers, h, isTruthy]
    | vnull => simp [getField] at h
    | vstr s => simp [getField] at h
    | vnum n => simp [getField] at h
    | vbool b => simp [getField] at h
    | vseq xs => simp [getField] at h
  · intro s hs h
    cases doc with
    | vmap dkvs => simp [extractTriggers, h, isTruthy, beq_false_of_ne hs]
    | vnull => simp [getField] at h
    | vstr s2 => simp [getField] at h
    | vnum n => simp [getField] at h
    | vbool b => simp [getField] at h
    | vseq xs => simp [getField] at h
  · intro xs h
    cases doc with
    | vmap dkvs =>
        rw [show extractTriggers (.vmap dkvs) = trigSeqLoop xs by
          simp [extractTriggers, h, isTruthy]]
        exact trigSeqLoop_map xs
    | vnull => simp [getField] at h
    | vstr s => simp [getField] at h
    | vnum n => simp [getField] at h
    | vbool b => simp [getField] at h
    | vseq ys => simp [getField] at h
  · intro kvs h
    cases doc with
    | vmap dkvs =>
        rw [show extractTriggers (.vmap dkvs) = trigMapLoop kvs by
          simp [extractTriggers, h, isTruthy]]
        exact trigMapLoop_map kvs
    | vnull => simp [getField] at h
    | vstr s => simp [getField] at h
    | vnum n => simp [getField] at h
    | vbool b => simp [getField] at h
    | vseq ys => simp [getField] at h
  · intro e
    refine ⟨rfl, rfl, fun xs => rfl, fun kvs => rfl, ?_, fun n => rfl, fun b => rfl⟩
    intro s hs
    simp [mkTriggerEntry, beq_false_of_ne hs]

/-- C3 counterexample: a trigger specification that is present as the
empty string is a single string, yet extractTriggers returns the empty
sequence rather than one entry with that event name. -/
theorem C3_counterexample :
    extractTriggers (.vmap (.cons "on" (.vstr "") .nil)) = ([] : List TriggerDetail)
    ∧ ([] : List TriggerDetail) ≠ [⟨.vstr "", none, none⟩] :=
  ⟨rfl, fun h => List.noConfusion h⟩

/-- C3 witness: a concrete mapping-shaped specification evaluated. -/
theorem C3_witness :
    extractTriggers (.vmap (.cons "on" (.vmap (.cons "push"
        (.vmap (.cons "branches" (.vseq (.cons (.vstr "main") .nil)) .nil))
        (.cons "release" .vnull .nil))) .nil))
      = [⟨.vstr "push", some "",
            some (.vmap (.cons "branches" (.vseq (.cons (.vstr "main") .nil)) .nil))⟩,
         ⟨.vstr "release", none, none⟩] := by
  have h := (C3_trigger_extractor (.vmap (.cons "on" (.vmap (.cons "push"
        (.vmap (.cons "branches" (.vseq (.cons (.vstr "main") .nil)) .nil))
        (.cons "release" .vnull .nil))) .nil))).2.2.2.2.1
      (.cons "push" (.vmap (.cons "branches" (.vseq (.cons (.vstr "main") .nil)) .nil))
        (.cons "release" .vnull .nil)) rfl
  exact h.trans (by rfl)

/-- C8: for a document whose jobs field holds a mapping, extractJobSteps
returns one entry per job in document order; a job whose steps field is
absent or not a sequence contributes an empty step list while still
appearing; and each StepDetail copies the name, uses and run fields
verbatim, absent fields staying absent. -/
theorem C8_step_extractor (doc : YVal) (kvs : YPairs)
    (h : getField doc "jobs" = some (.vmap kvs)) :
    extractJobSteps doc = kvs.toList.map (fun p => ⟨p.1, jobStepList p.2⟩)
    ∧ (∀ d : YVal, (∀ xs : YList, getField d "steps" ≠ some (.vseq xs)) → jobStepList d = [])
    ∧ (∀ (d : YVal) (xs : YList), getField d "steps" = some (.vseq xs) →
        jobStepList d = xs.toList.map fun st =>
          ⟨getField st "name", getField st "uses", getField st "run"⟩) := by
  refine ⟨?_, ?_, ?_⟩
  · rw [ejs_eq doc kvs h, jobsLoop_map]
  · intro d hne
    cases hs : getField d "steps" with
    | none => simp [jobStepList, hs]
    | some v =>
        cases v with
        | vseq xs => exact absurd hs (hne xs)
        | vnull => simp [jobStepList, hs]
        | vstr s => simp [jobStepList, hs]
        | vnum n => simp [jobStepList, hs]
        | vbool b => simp [jobStepList, hs]
        | vmap kvs2 => simp [jobStepList, hs]
  · intro d xs hs
    rw [show jobStepList d = stepsLoop xs by simp [jobStepList, hs]]
    exact stepsLoop_map xs

/-- C8 witness: a job with a needs field but no steps field still appears
with an empty step list. -/
theorem C8_witness :
    extractJobSteps (.vmap (.cons "jobs" (.vmap (.cons "deploy"
        (.vmap (.cons "needs" (.vstr "build") .nil)) .nil)) .nil))
      = [⟨"deploy", []⟩] := by
  have h := (C8_step_extractor (.vmap (.cons "jobs" (.vmap (.cons "deploy"
        (.vmap (.cons "needs" (.vstr "build") .nil)) .nil)) .nil))
      (.cons "deploy" (.vmap (.cons "needs" (.vstr "build") .nil)) .nil) rfl).1
  exact h.trans (by rfl)

/-- C9: a trigger specification that is present but neither a string nor
a sequence nor a mapping (a number or a boolean) makes extractTriggers
return the empty sequence. -/
theorem C9_other_scalar_triggers (doc : YVal) :
    (∀ n : Int, getField doc "on" = some (.vnum n) → extractTriggers doc = [])
    ∧ (∀ b : Bool, getField doc "on" = some (.vbool b) → extractTriggers doc = []) := by
  constructor
  · intro n h
    cases doc with
    | vmap dkvs =>
        cases hb : (n == 0) <;> simp [extractTriggers, h, isTruthy, hb]
    | vnull => simp [getField] at h
    | vstr s => simp [getField] at h
    | vnum m => simp [getField] at h
    | vbool b => simp [getField] at h
    | vseq xs => simp [getField] at h
  · intro b h
    cases doc with
    | vmap dkvs =>
        cases b <;> simp [extractTriggers, h, isTruthy]
    | vnull => simp [getField] at h
    | vstr s => simp [getField] at h
    | vnum m => simp [getField] at h
    | vbool b2 => simp [getField] at h
    | vseq xs => simp [getField] at h

/-- C9 witness: a numeric trigger specification evaluated. -/
theorem C9_witness :
    extractTriggers (.vmap (.cons "on" (.vnum 5) .nil)) = [] :=
  (C9_other_scalar_triggers (.vmap (.cons "on" (.vnum 5) .nil))).1 5 rfl

theorem name_in_needsLoop (ys : YList) (jobName : String) (h : ys ≠ .nil) :
    jobName.data <:+: (needsLoop ys jobName).data := by
  cases ys with
  | nil => exact absurd rfl h
  | cons x r =>
      show jobName.data <:+:
        (("  " ++ jsToString x ++ " --> " ++ jobName ++ "\n") ++ needsLoop r jobName).data
      refine ⟨("  " ++ jsToString x ++ " --> ").data, ("\n" ++ needsLoop r jobName).data, ?_⟩
      simp [String.data_append, List.append_assoc]

theorem name_in_jobLines (jobName : String) (jobDef : YVal)
    (h : getField jobDef "needs" ≠ some (.vseq .nil)) :
    jobName.data <:+: (jobLines jobName jobDef).data := by
  have hstand : jobName.data <:+: ("  " ++ jobName ++ "\n").data :=
    ⟨"  ".data, "\n".data, by simp [String.data_append, List.append_assoc]⟩
  unfold jobLines
  cases hn : getField jobDef "needs" with
  | none => exact hstand
  | some needs =>
      show jobName.data <:+:
        (if isTruthy needs = true then needsLoop (normNeeds needs) jobName
         else "  " ++ jobName ++ "\n").data
      by_cases ht : isTruthy needs = true
      · rw [if_pos ht]
        apply name_in_needsLoop
        cases needs with
        | vseq xs =>
            intro hx
            rw [show normNeeds (.vseq xs) = xs from rfl] at hx
            subst hx
            exact h hn
        | vnull => simp [normNeeds]
        | vstr s => simp [normNeeds]
        | vnum n => simp [normNeeds]
        | vbool b => simp [normNeeds]
        | vmap kvs => simp [normNeeds]
      · rw [if_neg ht]
        exact hstand

theorem jobLines_in_graphLoop : (kvs : YPairs) → (jobName : String) → (jobDef : YVal) →
    (jobName, jobDef) ∈ kvs.toList →
    (jobLines jobName jobDef).data <:+: (graphLoop kvs).data
  | .nil, jobName, jobDef, h => by simp [YPairs.toList] at h
  | .cons k v rest, jobName, jobDef, h => by
      rw [show YPairs.toList (.cons k v rest) = (k, v) :: rest.toList from rfl] at h
      rw [show graphLoop (.cons k v rest) = jobLines k v ++ graphLoop rest from rfl,
        String.data_append]
      rcases List.mem_cons.mp h with heq | hmem
      · cases heq
        exact ⟨[], (graphLoop rest).data, by simp⟩
      · exact within_extend_left _ _ _ (jobLines_in_graphLoop rest jobName jobDef hmem)

/-- C4 counterexample: a job whose needs field is present as an empty
sequence contributes no line at all, so its name does not appear anywhere
in the graph output — refuting the invariant that every job name appears
at least once. -/
theorem C4_counterexample :
    generateMermaid (.vmap (.cons "jobs" (.vmap (.cons "build"
        (.vmap (.cons "needs" (.vseq .nil) .nil)) .nil)) .nil)) = "graph TD\n"
    ∧ ¬ ("build".data <:+: "graph TD\n".data) :=
  ⟨rfl, by decide⟩

/-- C4 (amended): for a document with a jobs mapping, every job whose
needs field is not a present-but-empty sequence has its name appear in
the graph output (a job with needs equal to the empty sequence
contributes no line and may be missing from the output). -/
theorem C4_job_name_in_output (doc : YVal) (kvs : YPairs) (jobName : String) (jobDef : YVal)
    (hjobs : getField doc "jobs" = some (.vmap kvs))
    (hmem : (jobName, jobDef) ∈ kvs.toList)
    (hneeds : getField jobDef "needs" ≠ some (.vseq .nil)) :
    jobName.data <:+: (generateMermaid doc).data := by
  have hne : kvs ≠ .nil := by
    intro hk
    subst hk
    simp [YPairs.toList] at hmem
  rw [gm_eq doc kvs hjobs hne, String.data_append]
  exact within_extend_left _ _ _
    (within_trans _ _ _ (name_in_jobLines jobName jobDef hneeds)
      (jobLines_in_graphLoop kvs jobName jobDef hmem))

/-- C4 witness: the name of a standalone job appears in the output. -/
theorem C4_witness :
    "lint".data <:+:
      (generateMermaid (.vmap (.cons "jobs" (.vmap (.cons "lint" (.vmap .nil) .nil)) .nil))).data :=
  C4_job_name_in_output
    (.vmap (.cons "jobs" (.vmap (.cons "lint" (.vmap .nil) .nil)) .nil))
    (.cons "lint" (.vmap .nil) .nil) "lint" (.vmap .nil)
    rfl (by simp [YPairs.toList]) (fun hx => Option.noConfusion hx)

/-- C5 counterexample: on the jobs mapping with build having no needs and
test needing build, the graph text contains the standalone-node line for
build as well as the edge line, so it is not the header plus exactly one
edge line. -/
theorem C5_counterexample :
    generateMermaid (.vmap (.cons "jobs" (.vmap (.cons "build" (.vmap .nil)
        (.cons "test" (.vmap (.cons "needs" (.vstr "build") .nil)) .nil))) .nil))
      = "graph TD\n  build\n  build --> test\n"
    ∧ "graph TD\n  build\n  build --> test\n" ≠ "graph TD\n  build --> test\n" :=
  ⟨rfl, by decide⟩

/-- C5 (amended): for the jobs mapping with build having no needs and
test needing build, generateMermaid returns the header line, then the
standalone-node line for build, then the single edge line for test. -/
theorem C5_two_job_pipeline :
    generateMermaid (.vmap (.cons "jobs" (.vmap (.cons "build" (.vmap .nil)
        (.cons "test" (.vmap (.cons "needs" (.vstr "build") .nil)) .nil))) .nil))
      = "graph TD\n  build\n  build --> test\n" := rfl

/-- C6: the formatter is not total on malformed payloads: with a
wrongly-typed branches field (a string rather than a sequence) the push
branch calls join on a non-array and throws, and a schedule sequence
containing a null entry throws on reading its cron field. -/
theorem C6_formatter_throws :
    formatTriggerDetail "push" (.vmap (.cons "branches" (.vstr "main") .nil))
      = .error "TypeError: v.join is not a function"
    ∧ formatTriggerDetail "schedule" (.vseq (.cons .vnull .nil))
      = .error "TypeError: Cannot read properties of null" :=
  ⟨rfl, rfl⟩

/-- C7 counterexample: for issue_comment with a payload lacking the types
field, the formatter does not produce the no-output value; it falls
through to the generic structured dump of the payload. -/
theorem C7_counterexample :
    formatTriggerDetail "issue_comment" (.vmap (.cons "foo" (.vnum 1) .nil))
      = .ok (.pre "\x7b\n  \"foo\": 1\n\x7d")
    ∧ RenderNode.pre "\x7b\n  \"foo\": 1\n\x7d" ≠ RenderNode.rnone :=
  ⟨rfl, fun h => RenderNode.noConfusion h⟩

/-- C7 (amended): for issue_comment and release with a structured truthy
payload, the formatter inspects only the types field: when that field is
a sequence it produces the single labeled Types list item with the joined
values, and when the field is absent or falsy it falls back to the
generic structured dump of the payload (not to an empty output). -/
theorem C7_types_item_or_dump (event : String) (detail : YVal)
    (hev : event = "issue_comment" ∨ event = "release")
    (htr : isTruthy detail = true) (hobj : isObject detail = true) :
    (∀ xs : YList, getField detail "types" = some (.vseq xs) →
        formatTriggerDetail event detail
          = .ok (.ulist [RItem.item "Types" (some (.vstr (jsJoinSep xs ", ")))]))
    ∧ (optTruthy (getField detail "types") = false →
        formatTriggerDetail event detail = .ok (.pre (jsonStr detail 0))) := by
  rcases hev with rfl | rfl <;> constructor
  · intro xs hty
    have hsv : ∀ ys : YList, optTruthy (some (.vseq ys)) = true := fun ys => rfl
    simp [formatTriggerDetail, htr, hobj, hty, hsv, jsJoin]
  · intro hf
    simp [formatTriggerDetail, htr, hobj, hf]
  · intro xs hty
    have hsv : ∀ ys : YList, optTruthy (some (.vseq ys)) = true := fun ys => rfl
    simp [formatTriggerDetail, htr, hobj, hty, hsv, jsJoin]
  · intro hf
    simp [formatTriggerDetail, htr, hobj, hf]

/-- C7 witness: a concrete issue_comment payload with a types sequence. -/
theorem C7_witness :
    formatTriggerDetail "issue_comment"
        (.vmap (.cons "types" (.vseq (.cons (.vstr "created") .nil)) .nil))
      = .ok (.ulist [RItem.item "Types" (some (.vstr "created"))]) := by
  have h := (C7_types_item_or_dump "issue_comment"
      (.vmap (.cons "types" (.vseq (.cons (.vstr "created") .nil)) .nil))
      (Or.inl rfl) rfl rfl).1 (.cons (.vstr "created") .nil) rfl
  exact h.trans (by rfl)

/-- C10: for push and pull_request, a structured truthy payload with none
of the three recognized fields (branches, paths, types) yields the empty
list element, not the generic structured dump — unrecognized keys are
silently dropped. -/
theorem C10_push_unrecognized_empty (event : String) (detail : YVal)
    (hev : event = "push" ∨ event = "pull_request")
    (htr : isTruthy detail = true) (hobj : isObject detail = true)
    (hb : getField detail "branches" = none)
    (hp : getField detail "paths" = none)
    (ht : getField detail "types" = none) :
    formatTriggerDetail event detail = .ok (.ulist []) := by
  rcases hev with rfl | rfl <;>
    simp [formatTriggerDetail, htr, hobj, fieldItem, hb, hp, ht]

/-- C10 witness: a push payload holding only an unrecognized key. -/
theorem C10_witness :
    formatTriggerDetail "push" (.vmap (.cons "foo" (.vnum 1) .nil)) = .ok (.ulist []) :=
  C10_push_unrecognized_empty "push" (.vmap (.cons "foo" (.vnum 1) .nil))
    (Or.inl rfl) rfl rfl rfl rfl rfl

/-- C2 witness: concrete empty documents evaluated. -/
theorem C2_witness :
    (generateMermaid .vnull = "" ∧ extractJobSteps .vnull = [])
    ∧ (generateMermaid (.vmap (.cons "jobs" (.vmap .nil) .nil)) = ""
        ∧ extractJobSteps (.vmap (.cons "jobs" (.vmap .nil) .nil)) = []) :=
  ⟨(C2_empty_marker .vnull).1 rfl,
   (C2_empty_marker (.vmap (.cons "jobs" (.vmap .nil) .nil))).2.1 rfl⟩
